import Mathlib

/-!
Shallow embedding of the fan-out task-execution engine of `multi-git`:
the `Result`/`Summary` classification model (`internal/repository`, result
and summary code), the `Manager` parallelism accessor (`manager.go`), and
the `Executor` (`executor.go`) in its sequential and bounded-parallel modes.

Go `time.Duration` is `int64`; durations are modelled as `Int` (no
arithmetic is performed on them by the embedded code, only comparison
with zero and storage).  Go `error` values are modelled by `GoError`.
Concurrency in `ExecuteParallel` is modelled by an explicit trace: a
completion/dequeue order `order : List Nat` (a permutation of
`List.range N`, reflecting that the jobs channel hands each descriptor
to exactly one worker) and a cancellation observation
`cancelled : Nat → Bool` (whether `ctx.Done()` was ready when descriptor
`i` was dequeued).  Sequential mode checks the same signal once per
iteration index.
-/

namespace MultiGit

/-- A Go `error` value: the context cancellation errors plus arbitrary
message errors produced by tasks. -/
inductive GoError where
  | canceled
  | deadlineExceeded
  | msg (s : String)
deriving DecidableEq

/-- `config.Repository`: name, url, optional path (empty string when absent). -/
structure Repository where
  Name : String
  URL : String
  Path : String
deriving DecidableEq, Inhabited

/-- `repository.Result`: the outcome record for one repository operation. -/
structure Result where
  RepoName : String
  Success : Bool
  Error : Option GoError
  Duration : Int
  Message : String
deriving DecidableEq, Inhabited

/-- `repository.Summary`: the aggregate over all results. -/
structure Summary where
  TotalCount : Nat
  SuccessCount : Nat
  FailedCount : Nat
  SkippedCount : Nat
  TotalDuration : Int
  Results : List Result
deriving DecidableEq

/-- `Result.IsSkipped`: `r.Success && r.Duration == 0 && r.Message != ""`. -/
def Result.IsSkipped (r : Result) : Bool :=
  r.Success && r.Duration == 0 && r.Message != ""

/-- The body of the counting loop in `NewSummary`: dispatch one result
into the success / skipped / failed counter. -/
def summaryStep (s : Summary) (r : Result) : Summary :=
  if r.Success then
    if r.IsSkipped then { s with SkippedCount := s.SkippedCount + 1 }
    else { s with SuccessCount := s.SuccessCount + 1 }
  else { s with FailedCount := s.FailedCount + 1 }

/-- `repository.NewSummary`: build the summary with `TotalCount = len(results)`
and one linear pass accumulating the three counters. -/
def NewSummary (results : List Result) (totalDuration : Int) : Summary :=
  results.foldl summaryStep
    { TotalCount := results.length
      SuccessCount := 0
      FailedCount := 0
      SkippedCount := 0
      TotalDuration := totalDuration
      Results := results }

/-- `Summary.FailedResults`: the results with `Success = false`. -/
def Summary.FailedResults (s : Summary) : List Result :=
  s.Results.filter (fun r => !r.Success)

/-- `Summary.SuccessfulResults`: successful results excluding skipped ones. -/
def Summary.SuccessfulResults (s : Summary) : List Result :=
  s.Results.filter (fun r => r.Success && !r.IsSkipped)

/-- `Summary.SkippedResults`: the skipped results. -/
def Summary.SkippedResults (s : Summary) : List Result :=
  s.Results.filter (fun r => r.IsSkipped)

/-- `Summary.HasFailures`: `s.FailedCount > 0`. -/
def Summary.HasFailures (s : Summary) : Bool :=
  s.FailedCount > 0

/-- The three-valued outcome classification named by the specification. -/
inductive ResultClass where
  | success
  | skipped
  | failed
deriving DecidableEq

/-- Modelled from the spec: `classify(r)` is `Failed` if `!r.success`;
else `Skipped` if `r.duration == 0 ∧ r.message ≠ ""`; else `Success`.
Used to compare the spec's classification against the code's
`IsSkipped`-based counting. -/
def classifySpec (r : Result) : ResultClass :=
  if !r.Success then .failed
  else if r.Duration == 0 && r.Message != "" then .skipped
  else .success

/-- `config.Config`: the processed configuration. -/
structure Config where
  BaseDir : String
  DefaultRemote : String
  ParallelWorkers : Int
  Repositories : List Repository
deriving DecidableEq

/-- `repository.Manager`: holds the configuration. -/
structure Manager where
  config : Config
deriving DecidableEq

/-- `Manager.ParallelWorkers`: the configured worker count, or the default 3
when the configured value is `≤ 0`. -/
def Manager.ParallelWorkers (m : Manager) : Int :=
  if m.config.ParallelWorkers ≤ 0 then 3 else m.config.ParallelWorkers

/-- `Manager.RepositoryCount`: `len(m.config.Repositories)`. -/
def Manager.RepositoryCount (m : Manager) : Nat :=
  m.config.Repositories.length

/-- The worker-count clamp at the top of `ExecuteParallel`:
`numWorkers := m.ParallelWorkers(); if numWorkers > numRepos { numWorkers = numRepos }`. -/
def Manager.numWorkers (m : Manager) : Int :=
  let n := m.ParallelWorkers
  if n > (m.RepositoryCount : Int) then (m.RepositoryCount : Int) else n

/-- The loop of `ExecuteSequential`: before each iteration check the
cancellation signal and `break` if it is set; otherwise run the task and
append its result.  `i` is the iteration index used to read the
cancellation trace. -/
def seqLoop (task : Repository → Result) (cancelled : Nat → Bool) :
    List Repository → Nat → List Result
  | [], _ => []
  | repo :: rest, i =>
    if cancelled i then []
    else task repo :: seqLoop task cancelled rest (i + 1)

/-- The results slice built by `ExecuteSequential`. -/
def ExecuteSequentialResults (repos : List Repository) (cancelled : Nat → Bool)
    (task : Repository → Result) : List Result :=
  seqLoop task cancelled repos 0

/-- `Manager.ExecuteSequential`: run the loop and build the summary over
the elapsed wall time. -/
def ExecuteSequential (repos : List Repository) (cancelled : Nat → Bool)
    (task : Repository → Result) (wall : Int) : Summary :=
  NewSummary (ExecuteSequentialResults repos cancelled task) wall

/-- The Result a parallel worker synthesizes for a descriptor dequeued
after cancellation: `Result{RepoName: repo.Name, Success: false, Error: ctx.Err()}`
(Go zero values fill `Duration = 0` and `Message = ""`). -/
def cancelResult (repo : Repository) (cerr : GoError) : Result :=
  { RepoName := repo.Name
    Success := false
    Error := some cerr
    Duration := 0
    Message := "" }

/-- What a parallel worker sends to the results channel for descriptor
index `i`: the synthesized cancellation Result when the signal was set at
dequeue time, otherwise the task's Result. -/
def parallelOutcome (repos : List Repository) (cancelled : Nat → Bool)
    (cerr : GoError) (task : Repository → Result) (i : Nat) : Result :=
  if cancelled i then cancelResult (repos.getD i default) cerr
  else task (repos.getD i default)

/-- The results slice collected by `ExecuteParallel`, in channel-arrival
order `order` (one entry per dequeued descriptor index). -/
def ExecuteParallelResults (repos : List Repository) (cancelled : Nat → Bool)
    (cerr : GoError) (task : Repository → Result) (order : List Nat) : List Result :=
  order.map (parallelOutcome repos cancelled cerr task)

/-- `Manager.ExecuteParallel`: early-return an empty summary for an empty
repository list, otherwise collect one result per dispatched descriptor
and build the summary over the elapsed wall time. -/
def ExecuteParallel (repos : List Repository) (cancelled : Nat → Bool)
    (cerr : GoError) (task : Repository → Result) (order : List Nat)
    (wall : Int) : Summary :=
  if repos.length = 0 then NewSummary [] wall
  else NewSummary (ExecuteParallelResults repos cancelled cerr task order) wall

/-- Number of `onProgress` invocations made by the parallel workers: the
callback runs only on the branch that actually invoked the task (the
cancellation branch `continue`s past it). -/
def parallelProgressCount (cancelled : Nat → Bool) (order : List Nat) : Nat :=
  order.countP (fun i => !cancelled i)

/-- `Manager.Execute`: parallel mode iff `m.ParallelWorkers() > 1`. -/
def Manager.Execute (m : Manager) (cancelled : Nat → Bool) (cerr : GoError)
    (task : Repository → Result) (order : List Nat) (wall : Int) : Summary :=
  if m.ParallelWorkers > 1 then
    ExecuteParallel m.config.Repositories cancelled cerr task order wall
  else
    ExecuteSequential m.config.Repositories cancelled task wall

/-- A concrete repository used to instantiate general theorems. -/
def repoA : Repository :=
  { Name := "alpha", URL := "urlA", Path := "" }

/-- A second concrete repository used to instantiate general theorems. -/
def repoB : Repository :=
  { Name := "beta", URL := "urlB", Path := "" }

/-- A concrete task that succeeds on every repository after five time units. -/
def demoTask : Repository → Result := fun r =>
  { RepoName := r.Name, Success := true, Error := none, Duration := 5, Message := "" }

/-- A cancellation trace that never fires. -/
def noCancel : Nat → Bool := fun _ => false

/-- A cancellation trace that is set from the start. -/
def alwaysCancel : Nat → Bool := fun _ => true

/-- A cancellation trace that fires at check index `k` and stays set. -/
def cancelFrom (k : Nat) : Nat → Bool := fun i => k ≤ i

/-- A concrete manager with configured parallelism 1. -/
def mgr1 : Manager :=
  { config := { BaseDir := "/base", DefaultRemote := "origin",
                ParallelWorkers := 1, Repositories := [repoA, repoB] } }

/-- A concrete manager with configured parallelism 0. -/
def mgr0 : Manager :=
  { config := { BaseDir := "/base", DefaultRemote := "origin",
                ParallelWorkers := 0, Repositories := [repoA, repoB] } }

/-- A concrete manager with configured parallelism 5. -/
def mgr5 : Manager :=
  { config := { BaseDir := "/base", DefaultRemote := "origin",
                ParallelWorkers := 5, Repositories := [repoA, repoB] } }

/-! Helper lemmas about `NewSummary`'s counting pass. -/

lemma summaryStep_Results (s : Summary) (r : Result) :
    (summaryStep s r).Results = s.Results := by
  unfold summaryStep
  split
  · split <;> rfl
  · rfl

lemma summaryStep_TotalCount (s : Summary) (r : Result) :
    (summaryStep s r).TotalCount = s.TotalCount := by
  unfold summaryStep
  split
  · split <;> rfl
  · rfl

lemma summaryStep_TotalDuration (s : Summary) (r : Result) :
    (summaryStep s r).TotalDuration = s.TotalDuration := by
  unfold summaryStep
  split
  · split <;> rfl
  · rfl

lemma summaryStep_FailedCount (s : Summary) (r : Result) :
    (summaryStep s r).FailedCount = s.FailedCount + (if r.Success then 0 else 1) := by
  unfold summaryStep
  cases h : r.Success
  · simp [h]
  · simp only [h, if_true]
    split <;> rfl

lemma summaryStep_SkippedCount (s : Summary) (r : Result) :
    (summaryStep s r).SkippedCount = s.SkippedCount + (if r.IsSkipped then 1 else 0) := by
  unfold summaryStep
  cases hs : r.Success <;> cases hk : r.IsSkipped <;>
    simp_all [Result.IsSkipped]

lemma summaryStep_SuccessCount (s : Summary) (r : Result) :
    (summaryStep s r).SuccessCount
      = s.SuccessCount + (if r.Success && !r.IsSkipped then 1 else 0) := by
  unfold summaryStep
  cases hs : r.Success
  · simp
  · cases hk : r.IsSkipped <;> simp [hk]

lemma foldl_summaryStep_Results (l : List Result) (s : Summary) :
    (l.foldl summaryStep s).Results = s.Results := by
  induction l generalizing s with
  | nil => rfl
  | cons r t ih => rw [List.foldl_cons, ih, summaryStep_Results]

lemma foldl_summaryStep_TotalCount (l : List Result) (s : Summary) :
    (l.foldl summaryStep s).TotalCount = s.TotalCount := by
  induction l generalizing s with
  | nil => rfl
  | cons r t ih => rw [List.foldl_cons, ih, summaryStep_TotalCount]

lemma foldl_summaryStep_TotalDuration (l : List Result) (s : Summary) :
    (l.foldl summaryStep s).TotalDuration = s.TotalDuration := by
  induction l generalizing s with
  | nil => rfl
  | cons r t ih => rw [List.foldl_cons, ih, summaryStep_TotalDuration]

lemma foldl_summaryStep_FailedCount (l : List Result) (s : Summary) :
    (l.foldl summaryStep s).FailedCount
      = s.FailedCount + l.countP (fun r => !r.Success) := by
  induction l generalizing s with
  | nil => simp
  | cons r t ih =>
    rw [List.foldl_cons, ih, summaryStep_FailedCount, List.countP_cons]
    cases h : r.Success <;> simp [h] <;> omega

lemma foldl_summaryStep_SkippedCount (l : List Result) (s : Summary) :
    (l.foldl summaryStep s).SkippedCount
      = s.SkippedCount + l.countP (fun r => r.IsSkipped) := by
  induction l generalizing s with
  | nil => simp
  | cons r t ih =>
    rw [List.foldl_cons, ih, summaryStep_SkippedCount, List.countP_cons]
    cases h : r.IsSkipped <;> simp [h] <;> omega

lemma foldl_summaryStep_SuccessCount (l : List Result) (s : Summary) :
    (l.foldl summaryStep s).SuccessCount
      = s.SuccessCount + l.countP (fun r => r.Success && !r.IsSkipped) := by
  induction l generalizing s with
  | nil => simp
  | cons r t ih =>
    rw [List.foldl_cons, ih, summaryStep_SuccessCount, List.countP_cons]
    cases h : (r.Success && !r.IsSkipped) <;> simp [h] <;> omega

lemma NewSummary_Results (l : List Result) (wall : Int) :
    (NewSummary l wall).Results = l := by
  unfold NewSummary
  rw [foldl_summaryStep_Results]

lemma NewSummary_TotalCount (l : List Result) (wall : Int) :
    (NewSummary l wall).TotalCount = l.length := by
  unfold NewSummary
  rw [foldl_summaryStep_TotalCount]

lemma NewSummary_TotalDuration (l : List Result) (wall : Int) :
    (NewSummary l wall).TotalDuration = wall := by
  unfold NewSummary
  rw [foldl_summaryStep_TotalDuration]

lemma NewSummary_FailedCount (l : List Result) (wall : Int) :
    (NewSummary l wall).FailedCount = l.countP (fun r => !r.Success) := by
  unfold NewSummary
  rw [foldl_summaryStep_FailedCount]
  simp

lemma NewSummary_SkippedCount (l : List Result) (wall : Int) :
    (NewSummary l wall).SkippedCount = l.countP (fun r => r.IsSkipped) := by
  unfold NewSummary
  rw [foldl_summaryStep_SkippedCount]
  simp

lemma NewSummary_SuccessCount (l : List Result) (wall : Int) :
    (NewSummary l wall).SuccessCount
      = l.countP (fun r => r.Success && !r.IsSkipped) := by
  unfold NewSummary
  rw [foldl_summaryStep_SuccessCount]
  simp

/-! Bridges between the spec's `classify` and the code's `IsSkipped` test. -/

lemma classifySpec_eq_failed (r : Result) :
    (classifySpec r == ResultClass.failed) = !r.Success := by
  unfold classifySpec
  cases hs : r.Success <;> cases hd : (r.Duration == 0) <;>
    cases hm : (r.Message != "") <;> simp [hs, hd, hm]

lemma classifySpec_eq_skipped (r : Result) :
    (classifySpec r == ResultClass.skipped) = r.IsSkipped := by
  unfold classifySpec Result.IsSkipped
  cases hs : r.Success <;> cases hd : (r.Duration == 0) <;>
    cases hm : (r.Message != "") <;> simp [hs, hd, hm]

lemma classifySpec_eq_success (r : Result) :
    (classifySpec r == ResultClass.success) = (r.Success && !r.IsSkipped) := by
  unfold classifySpec Result.IsSkipped
  cases hs : r.Success <;> cases hd : (r.Duration == 0) <;>
    cases hm : (r.Message != "") <;> simp [hs, hd, hm]

/-! Helper lemmas about the sequential loop. -/

lemma seqLoop_no_cancel (task : Repository → Result) (cancelled : Nat → Bool)
    (h : ∀ j, cancelled j = false) :
    ∀ (repos : List Repository) (i : Nat),
      seqLoop task cancelled repos i = repos.map task := by
  intro repos
  induction repos with
  | nil => intro i; rfl
  | cons repo rest ih =>
    intro i
    rw [seqLoop, h i]
    simp [ih (i + 1)]

lemma seqLoop_take_spec (task : Repository → Result) (cancelled : Nat → Bool) :
    ∀ (repos : List Repository) (i : Nat),
      ∃ m, m ≤ repos.length
        ∧ seqLoop task cancelled repos i = (repos.take m).map task
        ∧ (∀ j, j < m → cancelled (i + j) = false) := by
  intro repos
  induction repos with
  | nil =>
    intro i
    exact ⟨0, Nat.le_refl 0, rfl, fun j hj => absurd hj (Nat.not_lt_zero j)⟩
  | cons repo rest ih =>
    intro i
    by_cases h : cancelled i = true
    · refine ⟨0, Nat.zero_le _, ?_, fun j hj => absurd hj (Nat.not_lt_zero j)⟩
      rw [seqLoop, h]
      simp
    · obtain ⟨m, hm, heq, hall⟩ := ih (i + 1)
      have hci : cancelled i = false := Bool.not_eq_true _ ▸ eq_false_of_ne_true h
      refine ⟨m + 1, Nat.succ_le_succ hm, ?_, ?_⟩
      · rw [seqLoop, hci]
        simp [heq]
      · intro j hj
        cases j with
        | zero => simpa using hci
        | succ j =>
          have := hall j (Nat.lt_of_succ_lt_succ hj)
          rwa [show i + (j + 1) = i + 1 + j by omega]

/-! Helper lemmas about the parallel trace. -/

lemma range_map_getD {α : Type} [Inhabited α] (l : List α) :
    (List.range l.length).map (fun i => l.getD i default) = l := by
  apply List.ext_getElem
  · simp
  · intro i h1 h2
    simp only [List.getElem_map, List.getElem_range]
    exact List.getD_eq_getElem l default h2

lemma ExecuteParallelResults_length (repos : List Repository)
    (cancelled : Nat → Bool) (cerr : GoError) (task : Repository → Result)
    (order : List Nat) (hperm : order.Perm (List.range repos.length)) :
    (ExecuteParallelResults repos cancelled cerr task order).length = repos.length := by
  unfold ExecuteParallelResults
  rw [List.length_map, hperm.length_eq, List.length_range]

lemma ExecuteParallel_Results (repos : List Repository) (cancelled : Nat → Bool)
    (cerr : GoError) (task : Repository → Result) (order : List Nat) (wall : Int)
    (hperm : order.Perm (List.range repos.length)) :
    (ExecuteParallel repos cancelled cerr task order wall).Results
      = ExecuteParallelResults repos cancelled cerr task order := by
  unfold ExecuteParallel
  by_cases h : repos.length = 0
  · have horder : order = [] := by
      have := hperm.length_eq
      rw [h] at this
      simpa using List.eq_nil_of_length_eq_zero (by simpa using this)
    rw [if_pos h, horder]
    simp [ExecuteParallelResults, NewSummary_Results]
  · rw [if_neg h, NewSummary_Results]

lemma ExecuteParallelResults_no_cancel (repos : List Repository)
    (cancelled : Nat → Bool) (cerr : GoError) (task : Repository → Result)
    (order : List Nat) (hnc : ∀ i, cancelled i = false)
    (hperm : order.Perm (List.range repos.length)) :
    (ExecuteParallelResults repos cancelled cerr task order).Perm (repos.map task) := by
  unfold ExecuteParallelResults
  have h1 : (order.map (parallelOutcome repos cancelled cerr task)).Perm
      ((List.range repos.length).map (parallelOutcome repos cancelled cerr task)) :=
    hperm.map _
  have h2 : (List.range repos.length).map (parallelOutcome repos cancelled cerr task)
      = repos.map task := by
    have hout : parallelOutcome repos cancelled cerr task
        = fun i => task (repos.getD i default) := by
      funext i
      simp [parallelOutcome, hnc i]
    rw [hout]
    have : (fun i => task (repos.getD i default))
        = task ∘ (fun i => repos.getD i default) := rfl
    rw [this, ← List.map_map, range_map_getD]
  rw [h2] at h1
  exact h1

lemma countP_class_partition (l : List Result) :
    l.countP (fun r => r.Success && !r.IsSkipped) + l.countP (fun r => !r.Success)
      + l.countP (fun r => r.IsSkipped) = l.length := by
  induction l with
  | nil => rfl
  | cons r t ih =>
    simp only [List.countP_cons, List.length_cons]
    have h1 : (if (r.Success && !r.IsSkipped) = true then 1 else 0)
        + (if (!r.Success) = true then 1 else 0)
        + (if r.IsSkipped = true then 1 else 0) = 1 := by
      cases hs : r.Success
      · have hk : r.IsSkipped = false := by simp [Result.IsSkipped, hs]
        simp [hs, hk]
      · cases hk : r.IsSkipped <;> simp [hs, hk]
    omega

/-- C1: a Result is Failed when `Success` is false, else Skipped when
`Duration = 0` and `Message` is non-empty, else Success; `NewSummary`
counts every Result into exactly the counter of its class, and
`SuccessfulResults` / `SkippedResults` return exactly the Success- and
Skipped-classified Results. -/
theorem NewSummary_counts_by_classification (results : List Result) (wall : Int) :
    (NewSummary results wall).FailedCount
        = (results.filter (fun r => classifySpec r == ResultClass.failed)).length
    ∧ (NewSummary results wall).SkippedCount
        = (results.filter (fun r => classifySpec r == ResultClass.skipped)).length
    ∧ (NewSummary results wall).SuccessCount
        = (results.filter (fun r => classifySpec r == ResultClass.success)).length
    ∧ (NewSummary results wall).SuccessfulResults
        = results.filter (fun r => classifySpec r == ResultClass.success)
    ∧ (NewSummary results wall).SkippedResults
        = results.filter (fun r => classifySpec r == ResultClass.skipped) := by
  have hfail : ∀ r ∈ results,
      (classifySpec r == ResultClass.failed) = (!r.Success) :=
    fun r _ => classifySpec_eq_failed r
  have hskip : ∀ r ∈ results,
      (classifySpec r == ResultClass.skipped) = r.IsSkipped :=
    fun r _ => classifySpec_eq_skipped r
  have hsucc : ∀ r ∈ results,
      (classifySpec r == ResultClass.success) = (r.Success && !r.IsSkipped) :=
    fun r _ => classifySpec_eq_success r
  refine ⟨?_, ?_, ?_, ?_, ?_⟩
  · rw [NewSummary_FailedCount, List.filter_congr hfail,
      ← List.countP_eq_length_filter]
  · rw [NewSummary_SkippedCount, List.filter_congr hskip,
      ← List.countP_eq_length_filter]
  · rw [NewSummary_SuccessCount, List.filter_congr hsucc,
      ← List.countP_eq_length_filter]
  · rw [Summary.SuccessfulResults, NewSummary_Results, List.filter_congr hsucc]
  · rw [Summary.SkippedResults, NewSummary_Results, List.filter_congr hskip]

/-- C10: for every Summary built by `NewSummary`, `TotalCount` is the
number of Results and the three counters partition it
(`SuccessCount + FailedCount + SkippedCount = TotalCount`); both
execution modes build their Summary through `NewSummary` and so preserve
the invariant. -/
theorem Summary_counter_partition (results : List Result) (wall : Int)
    (repos : List Repository) (cancelled : Nat → Bool) (cerr : GoError)
    (task : Repository → Result) (order : List Nat) :
    (NewSummary results wall).TotalCount = results.length
    ∧ (NewSummary results wall).SuccessCount + (NewSummary results wall).FailedCount
        + (NewSummary results wall).SkippedCount = (NewSummary results wall).TotalCount
    ∧ (ExecuteSequential repos cancelled task wall).SuccessCount
        + (ExecuteSequential repos cancelled task wall).FailedCount
        + (ExecuteSequential repos cancelled task wall).SkippedCount
        = (ExecuteSequential repos cancelled task wall).TotalCount
    ∧ (ExecuteParallel repos cancelled cerr task order wall).SuccessCount
        + (ExecuteParallel repos cancelled cerr task order wall).FailedCount
        + (ExecuteParallel repos cancelled cerr task order wall).SkippedCount
        = (ExecuteParallel repos cancelled cerr task order wall).TotalCount := by
  have key : ∀ (l : List Result) (w : Int),
      (NewSummary l w).SuccessCount + (NewSummary l w).FailedCount
        + (NewSummary l w).SkippedCount = (NewSummary l w).TotalCount := by
    intro l w
    rw [NewSummary_SuccessCount, NewSummary_FailedCount, NewSummary_SkippedCount,
      NewSummary_TotalCount]
    exact countP_class_partition l
  refine ⟨NewSummary_TotalCount results wall, key results wall, key _ wall, ?_⟩
  unfold ExecuteParallel
  by_cases h : repos.length = 0
  · rw [if_pos h]
    exact key [] wall
  · rw [if_neg h]
    exact key _ wall

/-- C8: Sequential mode iterates the repositories in registration order
and appends each Result as produced, so the Results sequence is the task
image of a prefix of the input list: input order is preserved, with or
without cancellation truncation. -/
theorem ExecuteSequential_preserves_input_order (repos : List Repository)
    (cancelled : Nat → Bool) (task : Repository → Result) (wall : Int) :
    ∃ m, m ≤ repos.length
      ∧ (ExecuteSequential repos cancelled task wall).Results
          = (repos.take m).map task := by
  obtain ⟨m, hm, heq, -⟩ := seqLoop_take_spec task cancelled repos 0
  exact ⟨m, hm, by
    rw [ExecuteSequential, NewSummary_Results, ExecuteSequentialResults, heq]⟩

/-- C2: with no cancellation, both execution modes produce exactly one
Result per registered repository (N results for N repositories; the
sequential results are exactly the task image of the input list and the
parallel results are a permutation of it), and an empty repository list
yields an empty Summary with `TotalCount = 0` in both modes. -/
theorem Execute_modes_one_result_each (repos : List Repository)
    (cancelled : Nat → Bool) (cerr : GoError) (task : Repository → Result)
    (order : List Nat) (wall : Int)
    (hnc : ∀ i, cancelled i = false)
    (hperm : order.Perm (List.range repos.length)) :
    (ExecuteSequential repos cancelled task wall).Results = repos.map task
    ∧ (ExecuteSequential repos cancelled task wall).Results.length = repos.length
    ∧ (ExecuteParallel repos cancelled cerr task order wall).Results.length
        = repos.length
    ∧ (ExecuteParallel repos cancelled cerr task order wall).Results.Perm
        (repos.map task)
    ∧ (ExecuteSequential [] cancelled task wall).TotalCount = 0
    ∧ (ExecuteParallel [] cancelled cerr task [] wall).TotalCount = 0 := by
  have hseq : (ExecuteSequential repos cancelled task wall).Results
      = repos.map task := by
    rw [ExecuteSequential, NewSummary_Results, ExecuteSequentialResults,
      seqLoop_no_cancel task cancelled hnc repos 0]
  have hpar := ExecuteParallel_Results repos cancelled cerr task order wall hperm
  refine ⟨hseq, ?_, ?_, ?_, ?_, ?_⟩
  · rw [hseq, List.length_map]
  · rw [hpar, ExecuteParallelResults_length repos cancelled cerr task order hperm]
  · rw [hpar]
    exact ExecuteParallelResults_no_cancel repos cancelled cerr task order hnc hperm
  · rw [ExecuteSequential, NewSummary_TotalCount, ExecuteSequentialResults, seqLoop]
    rfl
  · simp [ExecuteParallel, NewSummary_TotalCount]

/-- C2 witness: the theorem instantiated on two concrete repositories,
a never-firing cancellation trace and a concrete completion order. -/
theorem Execute_modes_one_result_each_witness :
    (ExecuteSequential [repoA, repoB] noCancel demoTask 7).Results
        = [repoA, repoB].map demoTask
    ∧ (ExecuteParallel [repoA, repoB] noCancel GoError.canceled demoTask
        [1, 0] 7).Results.length = 2 := by
  have h := Execute_modes_one_result_each [repoA, repoB] noCancel
    GoError.canceled demoTask [1, 0] 7 (fun _ => rfl) (by decide)
  exact ⟨h.1, h.2.2.1⟩

/-- C3: in parallel mode each descriptor index is dequeued exactly once
(the work-queue trace counts it once), every dequeued descriptor yields
exactly one Result — the synthesized cancellation Result when the signal
was set at dequeue time — and the Summary contains exactly one Result per
input descriptor (`TotalCount` and the number of Results equal the input
count) even when cancellation fires. -/
theorem ExecuteParallel_one_result_per_descriptor (repos : List Repository)
    (cancelled : Nat → Bool) (cerr : GoError) (task : Repository → Result)
    (order : List Nat) (wall : Int)
    (hperm : order.Perm (List.range repos.length)) :
    (ExecuteParallel repos cancelled cerr task order wall).Results.length
        = repos.length
    ∧ (ExecuteParallel repos cancelled cerr task order wall).TotalCount
        = repos.length
    ∧ (∀ i, i < repos.length → order.count i = 1)
    ∧ (ExecuteParallel repos cancelled cerr task order wall).Results
        = order.map (parallelOutcome repos cancelled cerr task)
    ∧ (∀ i, cancelled i = true →
        parallelOutcome repos cancelled cerr task i
          = cancelResult (repos.getD i default) cerr) := by
  have hpar := ExecuteParallel_Results repos cancelled cerr task order wall hperm
  have hlen := ExecuteParallelResults_length repos cancelled cerr task order hperm
  refine ⟨?_, ?_, ?_, ?_, ?_⟩
  · rw [hpar, hlen]
  · rw [ExecuteParallel]
    by_cases h : repos.length = 0
    · rw [if_pos h, NewSummary_TotalCount, h]
      rfl
    · rw [if_neg h, NewSummary_TotalCount, hlen]
  · intro i hi
    rw [hperm.count_eq i]
    exact List.count_eq_one_of_mem (List.nodup_range _) (List.mem_range.mpr hi)
  · rw [hpar]
    rfl
  · intro i hc
    rw [parallelOutcome, if_pos hc]

/-- C3 witness: two repositories, cancellation firing from dequeue index 1
on, completion order `[0, 1]`: two results are still produced, index 1
is dequeued once, and its result is the synthesized cancellation Result. -/
theorem ExecuteParallel_one_result_per_descriptor_witness :
    (ExecuteParallel [repoA, repoB] (cancelFrom 1) GoError.canceled demoTask
        [0, 1] 7).Results.length = 2
    ∧ ([0, 1] : List Nat).count 1 = 1
    ∧ parallelOutcome [repoA, repoB] (cancelFrom 1) GoError.canceled demoTask 1
        = cancelResult repoB GoError.canceled := by
  have h := ExecuteParallel_one_result_per_descriptor [repoA, repoB]
    (cancelFrom 1) GoError.canceled demoTask [0, 1] 7 (by decide)
  exact ⟨h.1, h.2.2.1 1 (by decide), h.2.2.2.2 1 (by decide)⟩

/-- C4: in sequential mode, if the cancellation signal is set at check
index `k` (0-indexed) with `k < N`, the loop stops at some index `m ≤ k`:
the Results are the task image of the first `m` repositories only, so
they number fewer than N and contain no entry for any repository at or
beyond index `k`. -/
theorem ExecuteSequential_cancellation_truncates (repos : List Repository)
    (cancelled : Nat → Bool) (task : Repository → Result) (wall : Int) (k : Nat)
    (hk : k < repos.length) (hc : cancelled k = true) :
    ∃ m, m ≤ k
      ∧ (ExecuteSequential repos cancelled task wall).Results
          = (repos.take m).map task
      ∧ (ExecuteSequential repos cancelled task wall).Results.length
          < repos.length := by
  obtain ⟨m, hm, heq, hall⟩ := seqLoop_take_spec task cancelled repos 0
  have hmk : m ≤ k := by
    by_contra hlt
    have h0 := hall k (by omega)
    rw [Nat.zero_add, hc] at h0
    exact Bool.true_eq_false ▸ h0 ▸ rfl
  have hres : (ExecuteSequential repos cancelled task wall).Results
      = (repos.take m).map task := by
    rw [ExecuteSequential, NewSummary_Results, ExecuteSequentialResults, heq]
  refine ⟨m, hmk, hres, ?_⟩
  rw [hres, List.length_map, List.length_take]
  omega

/-- C4 witness: two repositories with the signal firing from check index 1:
the Results truncate to at most the first repository. -/
theorem ExecuteSequential_cancellation_truncates_witness :
    ∃ m, m ≤ 1
      ∧ (ExecuteSequential [repoA, repoB] (cancelFrom 1) demoTask 7).Results
          = ([repoA, repoB].take m).map demoTask
      ∧ (ExecuteSequential [repoA, repoB] (cancelFrom 1) demoTask 7).Results.length
          < ([repoA, repoB] : List Repository).length :=
  ExecuteSequential_cancellation_truncates [repoA, repoB] (cancelFrom 1)
    demoTask 7 1 (by decide) (by decide)

/-- C5: `Execute` runs sequential mode exactly when the normalized
parallelism is at most 1 and parallel mode otherwise, and the parallel
worker clamp computes `min(ParallelWorkers(), RepositoryCount())`, which
never exceeds the number of repositories. -/
theorem Execute_mode_selection (m : Manager) (cancelled : Nat → Bool)
    (cerr : GoError) (task : Repository → Result) (order : List Nat) (wall : Int) :
    (m.ParallelWorkers ≤ 1 →
        m.Execute cancelled cerr task order wall
          = ExecuteSequential m.config.Repositories cancelled task wall)
    ∧ (1 < m.ParallelWorkers →
        m.Execute cancelled cerr task order wall
          = ExecuteParallel m.config.Repositories cancelled cerr task order wall)
    ∧ m.numWorkers = min m.ParallelWorkers (m.RepositoryCount : Int)
    ∧ m.numWorkers ≤ (m.RepositoryCount : Int) := by
  refine ⟨?_, ?_, ?_, ?_⟩
  · intro h
    rw [Manager.Execute, if_neg (by omega)]
  · intro h
    rw [Manager.Execute, if_pos (by omega)]
  · simp only [Manager.numWorkers]
    split <;> omega
  · simp only [Manager.numWorkers]
    split <;> omega

/-- C5 witness: parallelism 1 selects sequential mode, parallelism 5 with
two repositories selects parallel mode with the worker count clamped to 2. -/
theorem Execute_mode_selection_witness :
    mgr1.Execute noCancel GoError.canceled demoTask [0, 1] 7
        = ExecuteSequential mgr1.config.Repositories noCancel demoTask 7
    ∧ mgr5.Execute noCancel GoError.canceled demoTask [0, 1] 7
        = ExecuteParallel mgr5.config.Repositories noCancel GoError.canceled
            demoTask [0, 1] 7
    ∧ mgr5.numWorkers = 2 := by
  have h1 := Execute_mode_selection mgr1 noCancel GoError.canceled demoTask [0, 1] 7
  have h5 := Execute_mode_selection mgr5 noCancel GoError.canceled demoTask [0, 1] 7
  refine ⟨h1.1 (by decide), h5.2.1 (by decide), ?_⟩
  rw [h5.2.2.1]
  decide

/-- C6: the parallelism accessor returns the configured count when it is
at least 1 and the default 3 when it is at most 0, so it is always at
least 1; a configured value of 1 forces sequential mode for every
repository list. -/
theorem ParallelWorkers_normalization (m : Manager) :
    (1 ≤ m.config.ParallelWorkers → m.ParallelWorkers = m.config.ParallelWorkers)
    ∧ (m.config.ParallelWorkers ≤ 0 → m.ParallelWorkers = 3)
    ∧ 1 ≤ m.ParallelWorkers
    ∧ (m.config.ParallelWorkers = 1 →
        ∀ (cancelled : Nat → Bool) (cerr : GoError) (task : Repository → Result)
          (order : List Nat) (wall : Int),
          m.Execute cancelled cerr task order wall
            = ExecuteSequential m.config.Repositories cancelled task wall) := by
  have hpw : m.ParallelWorkers
      = if m.config.ParallelWorkers ≤ 0 then 3 else m.config.ParallelWorkers := rfl
  refine ⟨?_, ?_, ?_, ?_⟩
  · intro h
    rw [hpw, if_neg (by omega)]
  · intro h
    rw [hpw, if_pos h]
  · rw [hpw]
    split <;> omega
  · intro h cancelled cerr task order wall
    have h1 : m.ParallelWorkers = 1 := by
      rw [hpw, if_neg (by omega), h]
    rw [Manager.Execute, if_neg (by omega)]

/-- C6 witness: configured parallelism 0 normalizes to 3; configured
parallelism 1 is returned unchanged and forces sequential mode with two
repositories registered. -/
theorem ParallelWorkers_normalization_witness :
    mgr0.ParallelWorkers = 3
    ∧ 1 ≤ mgr0.ParallelWorkers
    ∧ mgr1.ParallelWorkers = mgr1.config.ParallelWorkers
    ∧ mgr1.Execute noCancel GoError.canceled demoTask [0, 1] 7
        = ExecuteSequential mgr1.config.Repositories noCancel demoTask 7 := by
  have h0 := ParallelWorkers_normalization mgr0
  have h1 := ParallelWorkers_normalization mgr1
  exact ⟨h0.2.1 (by decide), h0.2.2.1, h1.1 (by decide),
    h1.2.2.2 (by decide) noCancel GoError.canceled demoTask [0, 1] 7⟩

/-- C9: the Result synthesized for a cancelled dequeue carries
`Duration = 0`, an empty `Message` and `Success = false`, is classified
Failed, increments `FailedCount` and neither `SkippedCount` nor
`SuccessCount` under `NewSummary`, and any parallel execution with a
cancelled dequeue reports `HasFailures() = true`. -/
theorem cancelResult_counted_as_failed (repo : Repository) (cerr : GoError) :
    (cancelResult repo cerr).Duration = 0
    ∧ (cancelResult repo cerr).Message = ""
    ∧ (cancelResult repo cerr).Success = false
    ∧ (cancelResult repo cerr).IsSkipped = false
    ∧ classifySpec (cancelResult repo cerr) = ResultClass.failed
    ∧ (∀ (results : List Result) (wall : Int),
        (NewSummary (cancelResult repo cerr :: results) wall).FailedCount
          = (NewSummary results wall).FailedCount + 1
        ∧ (NewSummary (cancelResult repo cerr :: results) wall).SkippedCount
          = (NewSummary results wall).SkippedCount
        ∧ (NewSummary (cancelResult repo cerr :: results) wall).SuccessCount
          = (NewSummary results wall).SuccessCount)
    ∧ (∀ (repos : List Repository) (cancelled : Nat → Bool)
        (task : Repository → Result) (order : List Nat) (wall : Int),
        order.Perm (List.range repos.length) →
        ∀ i, i ∈ order → cancelled i = true →
        (ExecuteParallel repos cancelled cerr task order wall).HasFailures
          = true) := by
  refine ⟨rfl, rfl, rfl, rfl, rfl, ?_, ?_⟩
  · intro results wall
    refine ⟨?_, ?_, ?_⟩
    · rw [NewSummary_FailedCount, NewSummary_FailedCount, List.countP_cons]
      simp [cancelResult]
    · rw [NewSummary_SkippedCount, NewSummary_SkippedCount, List.countP_cons]
      simp [cancelResult, Result.IsSkipped]
    · rw [NewSummary_SuccessCount, NewSummary_SuccessCount, List.countP_cons]
      simp [cancelResult]
  · intro repos cancelled task order wall hperm i hi hc
    have hlen : ¬ repos.length = 0 := by
      intro h0
      rw [h0, List.range_zero] at hperm
      rw [hperm.eq_nil] at hi
      exact absurd hi (List.not_mem_nil i)
    rw [ExecuteParallel, if_neg hlen, Summary.HasFailures, NewSummary_FailedCount]
    apply decide_eq_true
    apply List.countP_pos_iff.mpr
    refine ⟨cancelResult (repos.getD i default) cerr, ?_, rfl⟩
    have : parallelOutcome repos cancelled cerr task i
        = cancelResult (repos.getD i default) cerr := by
      rw [parallelOutcome, if_pos hc]
    exact this ▸ List.mem_map_of_mem _ hi

/-- C9 witness: the synthesized Result for one concrete repository has the
zero-value fields, bumps exactly `FailedCount`, and a one-repository
parallel run that is cancelled at dequeue time reports failures. -/
theorem cancelResult_counted_as_failed_witness :
    (cancelResult repoA GoError.canceled).Duration = 0
    ∧ (NewSummary [cancelResult repoA GoError.canceled] 7).FailedCount
        = (NewSummary [] 7).FailedCount + 1
    ∧ (NewSummary [cancelResult repoA GoError.canceled] 7).SkippedCount
        = (NewSummary [] 7).SkippedCount
    ∧ (ExecuteParallel [repoA] alwaysCancel GoError.canceled demoTask
        [0] 7).HasFailures = true := by
  have h := cancelResult_counted_as_failed repoA GoError.canceled
  exact ⟨h.1, (h.2.2.2.2.2.1 [] 7).1, (h.2.2.2.2.2.1 [] 7).2.1,
    h.2.2.2.2.2.2 [repoA] alwaysCancel demoTask [0] 7 (by decide) 0
      (by decide) rfl⟩

/-- C7 counterexample: one repository, cancellation set at dequeue time:
the worker synthesizes a Result (one Result is collected) but `continue`s
past the progress callback, so the callback runs zero times, not once per
dispatched descriptor. -/
theorem ExecuteParallel_progress_skipped_on_cancel :
    ([0] : List Nat).Perm (List.range ([repoA] : List Repository).length)
    ∧ (ExecuteParallelResults [repoA] alwaysCancel GoError.canceled demoTask
        [0]).length = 1
    ∧ parallelProgressCount alwaysCancel [0] = 0
    ∧ parallelProgressCount alwaysCancel [0]
        ≠ ([repoA] : List Repository).length := by
  exact ⟨by decide, rfl, rfl, by decide⟩

/-- C7 (amended): the progress callback is invoked exactly once per
descriptor whose dequeue found the cancellation signal unset (that is,
once per Task actually invoked, after its Result was forwarded); it is
not invoked for synthesized cancellation Results, so its invocation count
is at most the input count, with equality when cancellation never fires. -/
theorem ExecuteParallel_progress_per_executed_task (repos : List Repository)
    (cancelled : Nat → Bool) (order : List Nat)
    (hperm : order.Perm (List.range repos.length)) :
    parallelProgressCount cancelled order
        = ((List.range repos.length).filter (fun i => !cancelled i)).length
    ∧ parallelProgressCount cancelled order ≤ repos.length
    ∧ ((∀ i, cancelled i = false) →
        parallelProgressCount cancelled order = repos.length) := by
  have hc := hperm.countP_eq (fun i => !cancelled i)
  refine ⟨?_, ?_, ?_⟩
  · rw [parallelProgressCount, hc, List.countP_eq_length_filter]
  · rw [parallelProgressCount, hc]
    have h1 := List.countP_le_length (l := List.range repos.length)
      (fun i => !cancelled i)
    rw [List.length_range] at h1
    exact h1
  · intro h
    rw [parallelProgressCount, hc,
      List.countP_eq_length.mpr (fun a _ => by rw [h a]; rfl),
      List.length_range]

/-- C7 (amended) witness: with two repositories, cancellation firing from
dequeue index 1 yields one callback run of the two dequeues; with no
cancellation both dequeues run the callback. -/
theorem ExecuteParallel_progress_per_executed_task_witness :
    parallelProgressCount (cancelFrom 1) [0, 1]
        ≤ ([repoA, repoB] : List Repository).length
    ∧ parallelProgressCount noCancel [0, 1]
        = ([repoA, repoB] : List Repository).length := by
  have h1 := ExecuteParallel_progress_per_executed_task [repoA, repoB]
    (cancelFrom 1) [0, 1] (by decide)
  have h2 := ExecuteParallel_progress_per_executed_task [repoA, repoB]
    noCancel [0, 1] (by decide)
  exact ⟨h1.2.1, h2.2.2 (fun _ => rfl)⟩

end MultiGit
